import Mathlib

/-!
Verification of the BESA voice-assistant client core: the PCM codec
(src/utils/audioUtils.ts), the capture noise gate and playback scheduler
(src/utils/audioManager.ts), the tool dispatcher (src/utils/tools.ts) and
the session orchestrator (the main App component).

Modelling conventions: JavaScript numbers become rationals, byte strings
become lists of naturals below 256, base64 text becomes lists of sextet
values below 64 with 64 standing for the padding character, and promises
or thrown exceptions become explicit sum types. Every definition follows
the corresponding TypeScript function; comments cite the source.
-/

namespace Besa

/-! ## PCM codec (src/utils/audioUtils.ts)

The browser conversion from a double to an element of an Int16Array
truncates toward zero and wraps modulo 2 to the 16. -/

/-- Truncation toward zero, as the ToInt16 abstract operation starts with. -/
def jsTrunc (q : ℚ) : ℤ := if q < 0 then ⌈q⌉ else ⌊q⌋

/-- Wrap an integer into the signed 16 bit range, as assignment into an
Int16Array does. -/
def wrap16 (i : ℤ) : ℤ :=
  if 32768 ≤ i % 65536 then i % 65536 - 65536 else i % 65536

/-- Conversion of a double to an Int16Array element: truncate toward zero,
then wrap. -/
def toInt16 (q : ℚ) : ℤ := wrap16 (jsTrunc q)

/-- One sample of float32ToInt16: clamp to the unit interval, scale
negatives by 0x8000 and the rest by 0x7FFF, store into the Int16Array. -/
def sampleToInt16 (s : ℚ) : ℤ :=
  toInt16 (if max (-1) (min 1 s) < 0
           then max (-1) (min 1 s) * 32768
           else max (-1) (min 1 s) * 32767)

/-- float32ToInt16 maps the conversion over the captured block. -/
def float32ToInt16 (float32Array : List ℚ) : List ℤ :=
  float32Array.map sampleToInt16

/-- The two little-endian bytes an Int16Array element occupies in the
underlying buffer. -/
def int16ToBytes (v : ℤ) : List ℕ :=
  [(v % 65536).toNat % 256, (v % 65536).toNat / 256]

/-- btoa over the byte string: 3 bytes become 4 sextets, a short final
group is padded with 64 (the pad character). -/
def b64encode : List ℕ → List ℕ
  | [] => []
  | [a] => [a / 4, a % 4 * 16, 64, 64]
  | [a, b] => [a / 4, a % 4 * 16 + b / 16, b % 16 * 4, 64]
  | a :: b :: c :: rest =>
    (a / 4) :: (a % 4 * 16 + b / 16) :: (b % 16 * 4 + c / 64) :: (c % 64) :: b64encode rest

/-- atob over a well-formed base64 text: each group of 4 sextets yields up
to 3 bytes, pads cut the final group short. -/
def b64decode : List ℕ → List ℕ
  | w :: x :: y :: z :: rest =>
    if y = 64 then [w * 4 + x / 16]
    else if z = 64 then [w * 4 + x / 16, x % 16 * 16 + y / 4]
    else (w * 4 + x / 16) :: (x % 16 * 16 + y / 4) :: (y % 4 * 64 + z) :: b64decode rest
  | _ => []

/-- The Blob payload createAudioBlob builds for the live session. -/
structure Blob where
  data : List ℕ
  mimeType : String
deriving DecidableEq

/-- createAudioBlob: reinterpret the Int16Array as bytes, base64-encode,
attach the PCM rate descriptor. -/
def createAudioBlob (int16Data : List ℤ) (sampleRate : ℕ) : Blob :=
  { data := b64encode (int16Data.flatMap int16ToBytes),
    mimeType := "audio/pcm;rate=" ++ toString sampleRate }

/-- Reading an Int16Array view over the decoded bytes, little endian. -/
def bytesToInt16 (b0 b1 : ℕ) : ℤ :=
  if 32768 ≤ b0 + 256 * b1
  then ((b0 + 256 * b1 : ℕ) : ℤ) - 65536
  else ((b0 + 256 * b1 : ℕ) : ℤ)

/-- All complete little-endian pairs of the byte string. -/
def bytesToInt16s : List ℕ → List ℤ
  | b0 :: b1 :: rest => bytesToInt16 b0 b1 :: bytesToInt16s rest
  | _ => []

/-- The failures of decodeAudioData: constructing an Int16Array view over
a buffer whose byte length is not a multiple of 2 raises a RangeError, and
audioContext.createBuffer raises a NotSupportedError when the frame count
is zero (the empty payload). -/
inductive DecodeError
  | oddByteLength
  | zeroFrameCount
deriving DecidableEq

/-- The decoded playback buffer. duration follows the Web Audio rule
frameCount divided by sampleRate. -/
structure AudioBuffer where
  samples : List ℚ
  sampleRate : ℚ
deriving DecidableEq

def AudioBuffer.duration (b : AudioBuffer) : ℚ := b.samples.length / b.sampleRate

/-- decodeAudioData from src/utils/audioUtils.ts, at the mono
instantiation used by its only caller (numChannels defaults to 1 and
every call site keeps the default, so frameCount equals the Int16Array
length and channel 0 takes every sample): atob the base64 text, view the
bytes as an Int16Array (RangeError on odd byte length), create the buffer
(NotSupportedError on zero frame count, that is an empty byte string),
rescale each sample by 1 over 32768. -/
def decodeAudioData (base64String : List ℕ) (sampleRate : ℚ) :
    Except DecodeError AudioBuffer :=
  if (b64decode base64String).length % 2 = 0 then
    if b64decode base64String = [] then
      .error .zeroFrameCount
    else
      .ok { samples := (bytesToInt16s (b64decode base64String)).map (fun v : ℤ => (v : ℚ) / 32768),
            sampleRate := sampleRate }
  else
    .error .oddByteLength

/-! ### Codec roundtrip lemmas -/

theorem b64_roundtrip (l : List ℕ) (h : ∀ b ∈ l, b < 256) :
    b64decode (b64encode l) = l := by
  induction l using b64encode.induct with
  | case1 => rfl
  | case2 a =>
    simp only [b64encode, b64decode, eq_self_iff_true, if_true, List.cons.injEq, and_true]
    omega
  | case3 a b =>
    have hb : b < 256 := h b (by simp)
    simp only [b64encode, b64decode]
    rw [if_neg (by omega)]
    simp only [eq_self_iff_true, if_true, List.cons.injEq, and_true]
    constructor <;> omega
  | case4 a b c rest ih =>
    have hb : b < 256 := h b (by simp)
    have hc : c < 256 := h c (by simp)
    simp only [b64encode, b64decode]
    rw [if_neg (by omega), if_neg (by omega),
        ih fun x hx => h x (by simp [hx])]
    simp only [List.cons.injEq, and_true]
    refine ⟨by omega, by omega, by omega⟩

theorem wrap16_eq_self (i : ℤ) (h1 : -32768 ≤ i) (h2 : i ≤ 32767) :
    wrap16 i = i := by
  unfold wrap16
  split <;> omega

theorem int16_bytes_roundtrip (v : ℤ) (h1 : -32768 ≤ v) (h2 : v ≤ 32767) :
    bytesToInt16 ((v % 65536).toNat % 256) ((v % 65536).toNat / 256) = v := by
  unfold bytesToInt16
  split <;> omega

theorem int16ToBytes_lt (v : ℤ) : ∀ b ∈ int16ToBytes v, b < 256 := by
  intro b hb
  unfold int16ToBytes at hb
  simp only [List.mem_cons, List.mem_singleton, List.not_mem_nil, or_false] at hb
  rcases hb with rfl | rfl <;> omega

theorem bytesToInt16s_flatMap (l : List ℤ)
    (h : ∀ v ∈ l, -32768 ≤ v ∧ v ≤ 32767) :
    bytesToInt16s (l.flatMap int16ToBytes) = l := by
  induction l with
  | nil => rfl
  | cons v t ih =>
    have hv := h v (by simp)
    simp only [List.flatMap_cons, int16ToBytes, List.cons_append, List.nil_append]
    show bytesToInt16 _ _ :: bytesToInt16s (t.flatMap int16ToBytes) = v :: t
    rw [int16_bytes_roundtrip v hv.1 hv.2, ih fun w hw => h w (by simp [hw])]

theorem flatMap_int16ToBytes_length (l : List ℤ) :
    (l.flatMap int16ToBytes).length = 2 * l.length := by
  induction l with
  | nil => rfl
  | cons v t ih =>
    simp only [List.flatMap_cons, int16ToBytes, List.length_append, ih,
      List.length_cons, List.length_nil]
    ring

/-- Quantization facts about one encoded sample: the Int16 value stays in
range, and decoding it (division by 32768) lands strictly within 2 over
32768 of the original sample. -/
theorem sampleToInt16_quant (s : ℚ) (h1 : -1 ≤ s) (h2 : s ≤ 1) :
    (-32768 ≤ sampleToInt16 s ∧ sampleToInt16 s ≤ 32767) ∧
    |((sampleToInt16 s : ℤ) : ℚ) / 32768 - s| < 2 / 32768 := by
  have hc : max (-1) (min 1 s) = s := by
    rw [min_eq_right h2, max_eq_right h1]
  by_cases hneg : s < 0
  · have hq : s * 32768 < 0 := mul_neg_of_neg_of_pos hneg (by norm_num)
    have hlo : (-32768 : ℤ) ≤ ⌈s * 32768⌉ := by
      have hge : ((-32768 : ℤ) : ℚ) ≤ s * 32768 := by push_cast; nlinarith
      have := Int.ceil_le_ceil hge
      simpa using this
    have hhi : ⌈s * 32768⌉ ≤ 32767 := by
      have h0 : ⌈s * 32768⌉ ≤ 0 := Int.ceil_le.mpr (by exact_mod_cast hq.le)
      omega
    have hv : sampleToInt16 s = ⌈s * 32768⌉ := by
      unfold sampleToInt16 toInt16 jsTrunc
      rw [hc, if_pos hneg, if_pos hq]
      exact wrap16_eq_self _ hlo hhi
    have hle : (s * 32768 : ℚ) ≤ (⌈s * 32768⌉ : ℚ) := Int.le_ceil _
    have hlt : ((⌈s * 32768⌉ : ℚ)) < s * 32768 + 1 := Int.ceil_lt_add_one _
    refine ⟨⟨by rw [hv]; exact hlo, by rw [hv]; exact hhi⟩, ?_⟩
    rw [hv, abs_lt]
    constructor <;> linarith
  · push_neg at hneg
    have hq : ¬ (s * 32767 < 0) := by nlinarith
    have hlo : (0 : ℤ) ≤ ⌊s * 32767⌋ := Int.floor_nonneg.2 (by nlinarith)
    have hhi : ⌊s * 32767⌋ ≤ 32767 := by
      have hle32 : (s * 32767 : ℚ) ≤ ((32767 : ℤ) : ℚ) := by push_cast; nlinarith
      have := Int.floor_le_floor hle32
      simpa using this
    have hv : sampleToInt16 s = ⌊s * 32767⌋ := by
      unfold sampleToInt16 toInt16 jsTrunc
      rw [hc, if_neg (not_lt.mpr hneg), if_neg hq]
      exact wrap16_eq_self _ (by omega) hhi
    have hle : ((⌊s * 32767⌋ : ℚ)) ≤ s * 32767 := Int.floor_le _
    have hlt : (s * 32767 : ℚ) < ⌊s * 32767⌋ + 1 := Int.lt_floor_add_one _
    refine ⟨⟨by rw [hv]; omega, by rw [hv]; exact hhi⟩, ?_⟩
    rw [hv, abs_lt]
    constructor <;> linarith

/-! ## Capture pipeline noise gate (src/utils/audioManager.ts, the
onaudioprocess handler installed by the input path of AudioManager)

The handler returns immediately when the manager is closed; otherwise it
computes the RMS of the 4096-sample block, compares it against
threshold = 0.001 + (1 - sensitivity) * 0.05, and only on RMS strictly
above threshold encodes the block and hands the Blob to the onAudioData
callback at the fixed 16000 rate. -/

/-- The mean of the squared samples, the quantity under the square root in
the source. On the empty block the source forms 0 divided by 0, giving
NaN; in the rational model the division yields 0. -/
def meanSquare (inputData : List ℚ) : ℚ :=
  (inputData.map (fun x => x * x)).sum / inputData.length

/-- threshold = 0.001 + (1 - sensitivity) * 0.05, the noise gate level. -/
def threshold (sensitivity : ℚ) : ℚ :=
  1 / 1000 + (1 - sensitivity) * (5 / 100)

/-- The gate comparison rms strictly above t, where rms is the square root
of meanSquare. Rationals have no square root, so the comparison is encoded
by its square-free equivalent: for a nonnegative radicand, sqrt m is above
t exactly when t is negative or t squared is below m. The extra nonempty
test reproduces the NaN corner: on an empty block the source compares NaN,
and every NaN comparison is false. Lemma sqrt_gate_iff ties this encoding
back to the real square root. -/
def rmsGate (inputData : List ℚ) (t : ℚ) : Bool :=
  !inputData.isEmpty && decide (t < 0 ∨ t ^ 2 < meanSquare inputData)

/-- One run of the onaudioprocess handler: no output when closed, an
encoded Blob exactly when the gate passes. -/
def audioProcessCallback (isClosed : Bool) (sensitivity : ℚ)
    (inputData : List ℚ) : Option Blob :=
  if isClosed then none
  else if rmsGate inputData (threshold sensitivity) then
    some (createAudioBlob (float32ToInt16 inputData) 16000)
  else none

theorem meanSquare_nonneg (inputData : List ℚ) : 0 ≤ meanSquare inputData := by
  unfold meanSquare
  refine div_nonneg ?_ (by positivity)
  refine List.sum_nonneg ?_
  intro q hq
  simp only [List.mem_map] at hq
  obtain ⟨x, -, rfl⟩ := hq
  exact mul_self_nonneg x

/-- The square-free gate condition agrees with the real-number reading of
the source comparison sqrt m above t. -/
theorem sqrt_gate_iff (m t : ℚ) :
    ((t : ℝ) < Real.sqrt (m : ℝ)) ↔ (t < 0 ∨ t ^ 2 < m) := by
  by_cases ht : 0 ≤ t
  · rw [Real.lt_sqrt (by exact_mod_cast ht)]
    constructor
    · intro hlt
      right
      exact_mod_cast hlt
    · rintro (hlt | hlt)
      · exact absurd hlt (not_lt.mpr ht)
      · exact_mod_cast hlt
  · push_neg at ht
    constructor
    · intro _
      exact Or.inl ht
    · intro _
      calc (t : ℝ) < 0 := by exact_mod_cast ht
        _ ≤ Real.sqrt m := Real.sqrt_nonneg _

/-! ## Playback scheduler (src/utils/audioManager.ts)

AudioManager state: the nullable handles become booleans recording
presence, the live Set of source nodes becomes its size, and the playback
cursor and clock become rationals. -/

structure AudioManagerState where
  audioContext : Bool
  outputAnalyser : Bool
  processor : Bool
  stream : Bool
  audioSources : ℕ
  nextStartTime : ℚ
  isClosed : Bool
deriving DecidableEq

/-- The constructor: context and analyser are created and connected, no
input chain yet, empty live set, cursor at zero. -/
def mkAudioManager : AudioManagerState :=
  { audioContext := true, outputAnalyser := true, processor := false,
    stream := false, audioSources := 0, nextStartTime := 0, isClosed := false }

/-- A playback node scheduled by playAudioChunk: its start time on the
context clock and the duration of its buffer. -/
structure ScheduledSource where
  startTime : ℚ
  duration : ℚ
deriving DecidableEq

/-- playAudioChunk at clock value now: bail out when context or analyser
is missing; decode, and on DecodeError catch and drop the chunk leaving
the state untouched; on success schedule a node at
max(now, nextStartTime), advance the cursor by the buffer duration and
add the node to the live set. -/
def playAudioChunk (now : ℚ) (base64Audio : List ℕ) (st : AudioManagerState) :
    AudioManagerState × Option ScheduledSource :=
  if !st.audioContext || !st.outputAnalyser then (st, none)
  else
    match decodeAudioData base64Audio 24000 with
    | .error _ => (st, none)
    | .ok buf =>
      ({ st with
          nextStartTime := max now st.nextStartTime + buf.duration,
          audioSources := st.audioSources + 1 },
       some { startTime := max now st.nextStartTime, duration := buf.duration })

/-- close: raise the closed flag, tear down the input chain, stop and
clear every live node, reset the cursor. The context and analyser fields
are not cleared by the source. -/
def close (st : AudioManagerState) : AudioManagerState :=
  { st with isClosed := true, processor := false, stream := false,
            audioSources := 0, nextStartTime := 0 }

/-- A sequence of playAudioChunk calls; each element pairs the clock value
at the call with the chunk. Returns the final state and the scheduled
nodes, each paired with the clock value seen at its call. -/
def runPlayback (st : AudioManagerState) :
    List (ℚ × List ℕ) → AudioManagerState × List (ℚ × ScheduledSource)
  | [] => (st, [])
  | (now, chunk) :: rest =>
    match playAudioChunk now chunk st with
    | (st1, none) => runPlayback st1 rest
    | (st1, some node) =>
      ((runPlayback st1 rest).1, (now, node) :: (runPlayback st1 rest).2)

theorem decodeAudioData_duration_nonneg (b : List ℕ) (buf : AudioBuffer)
    (h : decodeAudioData b 24000 = .ok buf) : 0 ≤ buf.duration ∧ buf.sampleRate = 24000 := by
  unfold decodeAudioData at h
  split at h
  · split at h
    · cases h
    · cases h
      refine ⟨?_, rfl⟩
      unfold AudioBuffer.duration
      positivity
  · cases h

/-- Shape of one playAudioChunk step when it schedules a node. -/
theorem playAudioChunk_some (now : ℚ) (chunk : List ℕ) (st : AudioManagerState)
    (node : ScheduledSource) (h : (playAudioChunk now chunk st).2 = some node) :
    node.startTime = max now st.nextStartTime ∧
    0 ≤ node.duration ∧
    (playAudioChunk now chunk st).1.nextStartTime = node.startTime + node.duration ∧
    (playAudioChunk now chunk st).1.audioContext = st.audioContext ∧
    (playAudioChunk now chunk st).1.outputAnalyser = st.outputAnalyser := by
  by_cases hca : (!st.audioContext || !st.outputAnalyser) = true
  · unfold playAudioChunk at h
    rw [if_pos hca] at h
    cases h
  · rcases hd : decodeAudioData chunk 24000 with e | buf
    · unfold playAudioChunk at h
      rw [if_neg hca, hd] at h
      cases h
    · have heq : playAudioChunk now chunk st =
          ({ st with nextStartTime := max now st.nextStartTime + buf.duration,
                     audioSources := st.audioSources + 1 },
           some { startTime := max now st.nextStartTime, duration := buf.duration }) := by
        unfold playAudioChunk
        rw [if_neg hca, hd]
      rw [heq] at h ⊢
      simp only [Option.some.injEq] at h
      subst h
      exact ⟨rfl, (decodeAudioData_duration_nonneg chunk buf hd).1, rfl, rfl, rfl⟩

/-- Shape of one playAudioChunk step when it drops the chunk: the state is
untouched. -/
theorem playAudioChunk_none (now : ℚ) (chunk : List ℕ) (st : AudioManagerState)
    (h : (playAudioChunk now chunk st).2 = none) :
    (playAudioChunk now chunk st).1 = st := by
  by_cases hca : (!st.audioContext || !st.outputAnalyser) = true
  · unfold playAudioChunk
    rw [if_pos hca]
  · rcases hd : decodeAudioData chunk 24000 with e | buf
    · unfold playAudioChunk
      rw [if_neg hca, hd]
    · unfold playAudioChunk at h
      rw [if_neg hca, hd] at h
      cases h

/-- Trace invariant for a run of enqueues: context fields persist, the
cursor never decreases, every node starts no earlier than its clock value
and no earlier than the initial cursor, every node ends no later than the
final cursor, and consecutive nodes neither overlap nor go back in time. -/
theorem runPlayback_invariant (inputs : List (ℚ × List ℕ)) :
    ∀ st : AudioManagerState,
    (runPlayback st inputs).1.audioContext = st.audioContext ∧
    (runPlayback st inputs).1.outputAnalyser = st.outputAnalyser ∧
    st.nextStartTime ≤ (runPlayback st inputs).1.nextStartTime ∧
    (∀ p ∈ (runPlayback st inputs).2,
       p.1 ≤ p.2.startTime ∧ st.nextStartTime ≤ p.2.startTime ∧
       0 ≤ p.2.duration ∧
       p.2.startTime + p.2.duration ≤ (runPlayback st inputs).1.nextStartTime) ∧
    List.Chain' (fun a b => a.2.startTime + a.2.duration ≤ b.2.startTime)
      (runPlayback st inputs).2 ∧
    List.Chain' (fun a b => a.2.startTime ≤ b.2.startTime)
      (runPlayback st inputs).2 := by
  induction inputs with
  | nil =>
    intro st
    exact ⟨rfl, rfl, le_refl _, by simp [runPlayback], by simp [runPlayback],
      by simp [runPlayback]⟩
  | cons input rest ih =>
    intro st
    obtain ⟨now, chunk⟩ := input
    rcases hstep : playAudioChunk now chunk st with ⟨st1, opt⟩
    have hrun : runPlayback st ((now, chunk) :: rest) =
        match playAudioChunk now chunk st with
        | (st1, none) => runPlayback st1 rest
        | (st1, some node) =>
          ((runPlayback st1 rest).1, (now, node) :: (runPlayback st1 rest).2) := rfl
    rcases opt with _ | node
    · have h1 : (playAudioChunk now chunk st).1 = st := by
        apply playAudioChunk_none
        rw [hstep]
      have h1' : st1 = st := by
        rw [hstep] at h1
        exact h1
      rw [hrun, hstep]
      simp only [h1']
      exact ih st
    · have hsome : (playAudioChunk now chunk st).2 = some node := by rw [hstep]
      obtain ⟨hst, hdur, hnext, hctx, hana⟩ := playAudioChunk_some now chunk st node hsome
      have hst1 : (playAudioChunk now chunk st).1 = st1 := by rw [hstep]
      rw [hst1] at hnext hctx hana
      obtain ⟨ic, ia, imono, imem, ichain, ichain2⟩ := ih st1
      rw [hrun, hstep]
      have hstart_ge : st.nextStartTime ≤ node.startTime := by
        rw [hst]
        exact le_max_right _ _
      have hnow_le : now ≤ node.startTime := by
        rw [hst]
        exact le_max_left _ _
      have hnext_ge : node.startTime + node.duration ≤ (runPlayback st1 rest).1.nextStartTime := by
        rw [← hnext]
        exact imono
      refine ⟨by rw [ic, hctx], by rw [ia, hana], ?_, ?_, ?_, ?_⟩
      · calc st.nextStartTime ≤ node.startTime + node.duration := by linarith
          _ ≤ _ := hnext_ge
      · intro p hp
        rcases List.mem_cons.mp hp with rfl | hp'
        · exact ⟨hnow_le, hstart_ge, hdur, hnext_ge⟩
        · obtain ⟨q1, q2, q3, q4⟩ := imem p hp'
          refine ⟨q1, ?_, q3, q4⟩
          calc st.nextStartTime ≤ node.startTime + node.duration := by linarith
            _ = st1.nextStartTime := hnext.symm
            _ ≤ p.2.startTime := q2
      · refine List.chain'_cons'.mpr ⟨?_, ichain⟩
        intro q hq
        have hqmem : q ∈ (runPlayback st1 rest).2 := List.mem_of_mem_head? hq
        obtain ⟨-, q2, -, -⟩ := imem q hqmem
        calc node.startTime + node.duration = st1.nextStartTime := hnext.symm
          _ ≤ q.2.startTime := q2
      · refine List.chain'_cons'.mpr ⟨?_, ichain2⟩
        intro q hq
        have hqmem : q ∈ (runPlayback st1 rest).2 := List.mem_of_mem_head? hq
        obtain ⟨-, q2, -, -⟩ := imem q hqmem
        calc node.startTime ≤ node.startTime + node.duration := by linarith
          _ = st1.nextStartTime := hnext.symm
          _ ≤ q.2.startTime := q2

/-! ## Tool dispatcher (src/utils/tools.ts)

executeTool is one try block around a switch on the capability name; the
catch converts any thrown error e into the return value
with result text "Error executing tool: " followed by the message. Remote
awaits are modelled by an environment record carrying the outcome of each
network interaction; MediaItem ids and timestamps, produced from
Math.random and the wall clock, are outside the model. -/

inductive MediaType
  | image
  | video
  | search
  | map
deriving DecidableEq

/-- A Generated Media Item as handed to onMediaGenerated. -/
structure MediaItem where
  type : MediaType
  url : Option String
  content : Option String
  title : Option String
deriving DecidableEq

/-- The Active Context File fields read by the read_active_file branch. -/
structure ActiveFile where
  name : String
  content : String
deriving DecidableEq

/-- A long-running video operation handle as seen by the polling loop. -/
structure Operation where
  done : Bool
  videoUri : Option String
deriving DecidableEq

/-- The arguments object. The function declarations mark url, query and
prompt required for the capabilities using them; aspectRatio of
generate_image is optional and defaults to the 16:9 string. -/
structure ToolArgs where
  url : String
  query : String
  prompt : String
  aspect : Option String
deriving DecidableEq

/-- Outcomes of the awaited interactions inside executeTool. getUserLocation
resolves (possibly with no location) and never rejects, so the find_places
geolocation step is folded into placesResponse. videoFetch stands for the
fetch of the finished video bytes followed by URL.createObjectURL. -/
structure ToolEnv where
  now : String
  activeFile : Option ActiveFile
  logicCoreResponse : Except String String
  searchResponse : Except String String
  placesResponse : Except String String
  imageResponse : Except String (Option String)
  videoStart : Except String Operation
  videoPolls : List Operation
  videoFetch : Except String String

/-- Result of running the try block: a normal return carrying the response
value, the media items emitted through onMediaGenerated and the number of
times the polling loop inspected the done flag; a thrown error; or a run
that never returns because the polling loop never sees done. -/
inductive TryOutcome
  | returns (value : String) (media : List MediaItem) (videoStatusChecks : ℕ)
  | throws (msg : String)
  | hangs
deriving DecidableEq

/-- The while loop of generate_video: inspect done on the current handle,
and while false await 3 seconds and fetch the next handle. Returns the
completed handle and how many times done was inspected; none when the
supplied poll results never report done (the source loop would spin
forever). -/
def pollVideo (op : Operation) (polls : List Operation) : Option (Operation × ℕ) :=
  if op.done then some (op, 1)
  else
    match polls with
    | [] => none
    | p :: rest =>
      match pollVideo p rest with
      | some r => some (r.1, r.2 + 1)
      | none => none

/-- The switch inside the try block of executeTool, case by case from the
source. String bodies repeat the source literals; branch structure repeats
the source conditionals. -/
def executeToolBody (name : String) (args : ToolArgs) (env : ToolEnv) : TryOutcome :=
  match name with
  | "open_website" =>
    .returns ("Opened website: " ++
      (if args.url.startsWith "http" then args.url else "https://" ++ args.url)) [] 0
  | "get_current_time" =>
    .returns ("Current time: " ++ env.now) [] 0
  | "read_active_file" =>
    match env.activeFile with
    | none => .returns "No file is currently uploaded." [] 0
    | some f =>
      .returns ("File Name: " ++ f.name ++ "\nContent:\n" ++
        (if 50000 < f.content.length
         then f.content.take 50000 ++ "... [TRUNCATED]"
         else f.content)) [] 0
  | "consult_logic_core" =>
    match env.logicCoreResponse with
    | .ok t => .returns t [] 0
    | .error e => .throws e
  | "search_web" =>
    match env.searchResponse with
    | .ok t =>
      .returns ("Search complete. I have displayed the results: " ++ t)
        [{ type := .search, url := none, content := some t, title := none }] 0
    | .error e => .throws e
  | "find_places" =>
    match env.placesResponse with
    | .ok t =>
      .returns "I found some places. details are on the display."
        [{ type := .map, url := none, content := some t, title := none }] 0
    | .error e => .throws e
  | "generate_image" =>
    match env.imageResponse with
    | .ok (some b64) =>
      .returns "Image generated and displayed on screen."
        [{ type := .image, url := some ("data:image/png;base64," ++ b64),
           content := none, title := some args.prompt }] 0
    | .ok none => .returns "Failed to generate image." [] 0
    | .error e => .throws e
  | "generate_video" =>
    match env.videoStart with
    | .error e => .throws e
    | .ok op0 =>
      match pollVideo op0 env.videoPolls with
      | none => .hangs
      | some (opFinal, checks) =>
        match opFinal.videoUri with
        | none => .returns "Video generation failed." [] checks
        | some _ =>
          match env.videoFetch with
          | .error e => .throws e
          | .ok objectUrl =>
            .returns "Video generated and ready to play."
              [{ type := .video, url := some objectUrl,
                 content := none, title := some args.prompt }] checks
  | _ => .returns "Function not found" [] 0

/-- The shape of the object executeTool resolves with: the source returns
objects whose single payload field is named result in every branch,
including the catch; the errorField shape with a field named error is what
the specification describes, and appears in the model only so the claim
about it can be stated. -/
inductive ToolOutcome
  | resultField (value : String)
  | errorField (value : String)
deriving DecidableEq

def ToolOutcome.isErrorField : ToolOutcome → Bool
  | .errorField _ => true
  | _ => false

/-- What one executeTool call produced: the resolved object, the media
items emitted, and the observed count of polling status checks. -/
structure ToolRun where
  outcome : ToolOutcome
  media : List MediaItem
  videoStatusChecks : ℕ
deriving DecidableEq

/-- executeTool: the try block with its catch. A thrown error is caught
and turned into a resolved object whose result field holds
"Error executing tool: " and the message; none models a call that never
resolves. -/
def executeTool (name : String) (args : ToolArgs) (env : ToolEnv) : Option ToolRun :=
  match executeToolBody name args env with
  | .returns v m c => some { outcome := .resultField v, media := m, videoStatusChecks := c }
  | .throws e => some { outcome := .resultField ("Error executing tool: " ++ e),
                        media := [], videoStatusChecks := 0 }
  | .hangs => none

/-! ## Session orchestrator (the App component)

The onmessage callback demultiplexes one inbound LiveServerMessage. The
tool branch iterates over toolCall.functionCalls with for-of, awaiting
executeTool on each element before reaching the next, then sends exactly
one functionResponse echoing the id of the call. The audio and text
branches each inspect only element 0 of serverContent.modelTurn.parts,
guarded by optional chaining and JavaScript truthiness, so an empty
payload or empty text also skips the branch. -/

/-- One sent Tool Result together with the instants, on an abstract clock
counting await time, at which its call was dispatched and at which the
response was sent. -/
structure ToolResponseRecord where
  id : String
  dispatchTime : ℕ
  responseTime : ℕ
deriving DecidableEq

/-- The for-of loop over functionCalls: each element is a call id paired
with the latency of its executeTool await. Because the loop body awaits
the call before continuing, the next dispatch happens at the completion
instant of the previous call. -/
def toolLoopSchedule (t0 : ℕ) : List (String × ℕ) → List ToolResponseRecord
  | [] => []
  | (id, latency) :: rest =>
    { id := id, dispatchTime := t0, responseTime := t0 + latency } ::
      toolLoopSchedule (t0 + latency) rest

/-- One element of serverContent.modelTurn.parts. -/
structure ContentPart where
  inlineData : Option (List ℕ)
  text : Option String
deriving DecidableEq

/-- The inbound message fields the handler reads. -/
structure ServerMessage where
  toolCall : Option (List (String × ℕ))
  parts : List ContentPart
deriving DecidableEq

/-- Everything one onmessage run produces. -/
structure MessageEffects where
  toolResponses : List ToolResponseRecord
  manager : AudioManagerState
  scheduled : Option ScheduledSource
  transcript : List String
deriving DecidableEq

/-- The onmessage handler: tool branch, then the audio branch reading
parts index 0 inlineData data, then the text branch reading parts
index 0 text. -/
def onmessage (msg : ServerMessage) (st : AudioManagerState) (now : ℚ) :
    MessageEffects :=
  { toolResponses :=
      match msg.toolCall with
      | some calls => toolLoopSchedule 0 calls
      | none => []
    manager :=
      match msg.parts.head? with
      | some p =>
        match p.inlineData with
        | some d => if d = [] then st else (playAudioChunk now d st).1
        | none => st
      | none => st
    scheduled :=
      match msg.parts.head? with
      | some p =>
        match p.inlineData with
        | some d => if d = [] then none else (playAudioChunk now d st).2
        | none => none
      | none => none
    transcript :=
      match msg.parts.head? with
      | some p =>
        match p.text with
        | some t => if t = "" then [] else [t]
        | none => []
      | none => [] }

/-! ## Connection lifecycle (connect, disconnect, the App component)

connect sets CONNECTING, builds the AudioManager, reads the credential
from the environment and throws when it is absent or empty; the catch
logs, sets ERROR and calls disconnect, which resets to DISCONNECTED. The
microphone is requested only inside the onopen callback of a successfully
opened channel, which is also the only place CONNECTED is set. -/

inductive ConnectionState
  | DISCONNECTED
  | CONNECTING
  | CONNECTED
  | ERROR
deriving DecidableEq

/-- The failure taxonomy of a connect attempt: the missing-credential
throw (the Error with message API_KEY not found, the ConfigurationError
of the specification) or a channel that fails to open. -/
inductive ConnectFailure
  | ConfigurationError
  | ChannelError
deriving DecidableEq

/-- What the attempt depends on: the credential read from the process
environment, and whether the remote channel reaches onopen. -/
structure ConnectEnv where
  apiKey : Option String
  channelOpens : Bool
deriving DecidableEq

/-- The observable trace of one connect attempt: session states in the
order they are set, whether getUserMedia was ever requested, and the
failure if one was caught. -/
structure ConnectTrace where
  states : List ConnectionState
  micRequested : Bool
  failure : Option ConnectFailure
deriving DecidableEq

/-- JavaScript truthiness of the credential: undefined and the empty
string both fail the check. -/
def hasCredential : Option String → Bool
  | none => false
  | some k => !k.isEmpty

/-- One connect attempt. -/
def connect (env : ConnectEnv) : ConnectTrace :=
  if hasCredential env.apiKey then
    if env.channelOpens then
      { states := [.CONNECTING, .CONNECTED], micRequested := true, failure := none }
    else
      { states := [.CONNECTING, .ERROR, .DISCONNECTED], micRequested := false,
        failure := some .ChannelError }
  else
    { states := [.CONNECTING, .ERROR, .DISCONNECTED], micRequested := false,
      failure := some .ConfigurationError }

/-! ## Claims -/

/-- The empty payload hits the zero-frame-count error path: the source
raises NotSupportedError from createBuffer rather than producing an empty
buffer. -/
theorem decodeAudioData_empty :
    decodeAudioData [] 24000 = .error .zeroFrameCount := rfl

/-- Shared concrete chunk for witnesses: the 4 sextets decode to the two
bytes 0, 0, one zero Int16 sample, a buffer of one zero sample. -/
theorem decode_zero_chunk :
    decodeAudioData [0, 0, 0, 64] 24000 =
      .ok { samples := [(0 : ℚ)], sampleRate := 24000 } := by
  have hb : b64decode [0, 0, 0, 64] = [0, 0] := by decide
  unfold decodeAudioData
  rw [hb, if_pos (by decide), if_neg (by simp)]
  norm_num [bytesToInt16s, bytesToInt16]

/-- C1: every enqueued chunk is scheduled to start at
max(now, nextStartTime), after which nextStartTime equals that start plus
the buffer duration; over a whole run of enqueues the cursor never
decreases, every node starts no earlier than the clock value of its call,
consecutive starts never go back in time and never overlap
(start of the next is at least start plus duration of the previous). -/
theorem claim_playback_scheduling :
    (∀ (now : ℚ) (chunk : List ℕ) (st : AudioManagerState) (node : ScheduledSource),
       (playAudioChunk now chunk st).2 = some node →
         node.startTime = max now st.nextStartTime ∧
         (playAudioChunk now chunk st).1.nextStartTime = node.startTime + node.duration ∧
         now ≤ node.startTime) ∧
    (∀ (st : AudioManagerState) (inputs : List (ℚ × List ℕ)),
       st.nextStartTime ≤ (runPlayback st inputs).1.nextStartTime ∧
       (∀ p ∈ (runPlayback st inputs).2, p.1 ≤ p.2.startTime) ∧
       List.Chain' (fun a b => a.2.startTime + a.2.duration ≤ b.2.startTime)
         (runPlayback st inputs).2 ∧
       List.Chain' (fun a b => a.2.startTime ≤ b.2.startTime)
         (runPlayback st inputs).2) := by
  constructor
  · intro now chunk st node h
    obtain ⟨h1, h2, h3, -, -⟩ := playAudioChunk_some now chunk st node h
    refine ⟨h1, h3, ?_⟩
    rw [h1]
    exact le_max_left _ _
  · intro st inputs
    obtain ⟨-, -, hmono, hmem, hchain, hchain2⟩ := runPlayback_invariant inputs st
    exact ⟨hmono, fun p hp => (hmem p hp).1, hchain, hchain2⟩

theorem claim_playback_scheduling_witness :
    (playAudioChunk 1 [0, 0, 0, 64] mkAudioManager).2 =
      some { startTime := 1, duration := 1 / 24000 } ∧
    ({ startTime := 1, duration := 1 / 24000 } : ScheduledSource).startTime =
      max 1 mkAudioManager.nextStartTime ∧
    (playAudioChunk 1 [0, 0, 0, 64] mkAudioManager).1.nextStartTime =
      ({ startTime := 1, duration := 1 / 24000 } : ScheduledSource).startTime +
      ({ startTime := 1, duration := 1 / 24000 } : ScheduledSource).duration ∧
    (1 : ℚ) ≤ ({ startTime := 1, duration := 1 / 24000 } : ScheduledSource).startTime := by
  have h : (playAudioChunk 1 [0, 0, 0, 64] mkAudioManager).2 =
      some { startTime := 1, duration := 1 / 24000 } := by
    unfold playAudioChunk
    rw [if_neg (by simp [mkAudioManager]), decode_zero_chunk]
    show some ({ startTime := max 1 mkAudioManager.nextStartTime,
                 duration := AudioBuffer.duration { samples := [(0 : ℚ)], sampleRate := 24000 } } :
               ScheduledSource) =
      some ({ startTime := 1, duration := 1 / 24000 } : ScheduledSource)
    norm_num [mkAudioManager, AudioBuffer.duration]
  exact ⟨h, claim_playback_scheduling.1 1 [0, 0, 0, 64] mkAudioManager _ h⟩

/-- C7: a base64 payload whose decoded byte count is odd makes
decodeAudioData fail with the DecodeError, and playAudioChunk drops the
chunk without creating a node and without touching the state, so
nextStartTime and the live set are unchanged. -/
theorem claim_decode_odd_drops :
    ∀ (payload : List ℕ) (st : AudioManagerState) (now : ℚ),
      (b64decode payload).length % 2 = 1 →
      decodeAudioData payload 24000 = .error .oddByteLength ∧
      playAudioChunk now payload st = (st, none) ∧
      (playAudioChunk now payload st).1.nextStartTime = st.nextStartTime ∧
      (playAudioChunk now payload st).1.audioSources = st.audioSources := by
  intro payload st now hodd
  have hdec : decodeAudioData payload 24000 = .error .oddByteLength := by
    unfold decodeAudioData
    rw [if_neg (by omega)]
  have hplay : playAudioChunk now payload st = (st, none) := by
    by_cases hca : (!st.audioContext || !st.outputAnalyser) = true
    · unfold playAudioChunk
      rw [if_pos hca]
    · unfold playAudioChunk
      rw [if_neg hca, hdec]
  exact ⟨hdec, hplay, by rw [hplay], by rw [hplay]⟩

theorem claim_decode_odd_drops_witness :
    (b64decode [16, 16, 64, 64]).length % 2 = 1 ∧
    decodeAudioData [16, 16, 64, 64] 24000 = .error .oddByteLength ∧
    playAudioChunk 0 [16, 16, 64, 64] mkAudioManager = (mkAudioManager, none) ∧
    (playAudioChunk 0 [16, 16, 64, 64] mkAudioManager).1.nextStartTime =
      mkAudioManager.nextStartTime ∧
    (playAudioChunk 0 [16, 16, 64, 64] mkAudioManager).1.audioSources =
      mkAudioManager.audioSources := by
  have hodd : (b64decode [16, 16, 64, 64]).length % 2 = 1 := by decide
  exact ⟨hodd, claim_decode_odd_drops [16, 16, 64, 64] mkAudioManager 0 hodd⟩

/-- C10: after close, a later enqueue of a well-formed nonempty chunk is
not a no-op: the playback path never consults the closed flag, so a node
is still created and scheduled at max(now, 0), the live set grows to one,
and the cursor advances strictly above its reset value of zero; only the
capture-side block callback checks the closed flag and yields nothing. -/
theorem claim_playback_after_close :
    ∀ (st : AudioManagerState) (now : ℚ) (chunk : List ℕ) (buf : AudioBuffer),
      st.audioContext = true → st.outputAnalyser = true →
      decodeAudioData chunk 24000 = .ok buf → buf.samples ≠ [] →
      playAudioChunk now chunk (close st) =
        ({ close st with nextStartTime := max now 0 + buf.duration, audioSources := 1 },
         some { startTime := max now 0, duration := buf.duration }) ∧
      0 < (playAudioChunk now chunk (close st)).1.nextStartTime ∧
      (playAudioChunk now chunk (close st)).1.audioSources = 1 ∧
      (playAudioChunk now chunk (close st)).1.isClosed = true ∧
      (∀ (s : ℚ) (block : List ℚ), audioProcessCallback true s block = none) := by
  intro st now chunk buf hctx hana hdec hne
  have hca : ¬ ((!(close st).audioContext || !(close st).outputAnalyser) = true) := by
    show ¬ ((!st.audioContext || !st.outputAnalyser) = true)
    rw [hctx, hana]
    simp
  have hplay : playAudioChunk now chunk (close st) =
      ({ close st with nextStartTime := max now 0 + buf.duration, audioSources := 1 },
       some { startTime := max now 0, duration := buf.duration }) := by
    unfold playAudioChunk
    rw [if_neg hca, hdec]
    rfl
  have hdur : 0 < buf.duration := by
    obtain ⟨-, hsr⟩ := decodeAudioData_duration_nonneg chunk buf hdec
    unfold AudioBuffer.duration
    rw [hsr]
    have hlen : 0 < buf.samples.length := List.length_pos.mpr hne
    have hlen' : (0 : ℚ) < buf.samples.length := by exact_mod_cast hlen
    positivity
  refine ⟨hplay, ?_, by rw [hplay], by rw [hplay]; rfl, fun s block => rfl⟩
  rw [hplay]
  have : (0 : ℚ) ≤ max now 0 := le_max_right _ _
  show 0 < max now 0 + buf.duration
  linarith

theorem claim_playback_after_close_witness :
    mkAudioManager.audioContext = true ∧
    mkAudioManager.outputAnalyser = true ∧
    decodeAudioData [0, 0, 0, 64] 24000 =
      .ok { samples := [(0 : ℚ)], sampleRate := 24000 } ∧
    ({ samples := [(0 : ℚ)], sampleRate := 24000 } : AudioBuffer).samples ≠ [] ∧
    playAudioChunk 0 [0, 0, 0, 64] (close mkAudioManager) =
      ({ close mkAudioManager with
          nextStartTime := max 0 0 +
            ({ samples := [(0 : ℚ)], sampleRate := 24000 } : AudioBuffer).duration,
          audioSources := 1 },
       some { startTime := max 0 0,
              duration := ({ samples := [(0 : ℚ)], sampleRate := 24000 } : AudioBuffer).duration }) ∧
    0 < (playAudioChunk 0 [0, 0, 0, 64] (close mkAudioManager)).1.nextStartTime := by
  have h := claim_playback_after_close mkAudioManager 0 [0, 0, 0, 64]
    { samples := [(0 : ℚ)], sampleRate := 24000 } rfl rfl decode_zero_chunk (by simp)
  exact ⟨rfl, rfl, decode_zero_chunk, by simp, h.1, h.2.1⟩

/-- C6: with the pipeline live (closed flag down) and any sensitivity in
the unit interval, a captured block produces an encoded frame exactly when
its RMS exceeds 0.001 + (1 - sensitivity) * 0.05; the threshold is
monotonically non-increasing in the sensitivity, equals 1/1000 at
sensitivity 1 and 51/1000 at sensitivity 0. -/
theorem claim_noise_gate :
    (∀ (s : ℚ) (inputData : List ℚ), 0 ≤ s → s ≤ 1 → inputData ≠ [] →
       ((audioProcessCallback false s inputData).isSome = true ↔
         ((threshold s : ℚ) : ℝ) < Real.sqrt ((meanSquare inputData : ℚ) : ℝ))) ∧
    (∀ s1 s2 : ℚ, s1 ≤ s2 → threshold s2 ≤ threshold s1) ∧
    threshold 1 = 1 / 1000 ∧
    threshold 0 = 51 / 1000 := by
  refine ⟨?_, ?_, by norm_num [threshold], by norm_num [threshold]⟩
  · intro s inputData hs0 hs1 hne
    rw [sqrt_gate_iff (meanSquare inputData) (threshold s)]
    have hgate : rmsGate inputData (threshold s) = true ↔
        (threshold s < 0 ∨ threshold s ^ 2 < meanSquare inputData) := by
      unfold rmsGate
      simp [hne]
    rw [← hgate]
    unfold audioProcessCallback
    rcases hg : rmsGate inputData (threshold s) with _ | _ <;> simp [hg]
  · intro s1 s2 h
    unfold threshold
    nlinarith

theorem claim_noise_gate_witness :
    (0 : ℚ) ≤ 1 ∧ (1 : ℚ) ≤ 1 ∧ ([(1 / 2 : ℚ)] ≠ []) ∧
    ((audioProcessCallback false 1 [(1 / 2 : ℚ)]).isSome = true ↔
      ((threshold 1 : ℚ) : ℝ) < Real.sqrt ((meanSquare [(1 / 2 : ℚ)] : ℚ) : ℝ)) :=
  ⟨by norm_num, le_refl 1, by simp,
    claim_noise_gate.1 1 [(1 / 2 : ℚ)] (by norm_num) (le_refl 1) (by simp)⟩

/-- C5 (amended): for any nonempty sample sequence with values in the
unit interval, decoding the framed encoding succeeds, preserves the
length, and reproduces every sample within strictly less than 2/32768 —
the true quantization envelope of this codec, whose encoder scales
nonnegative samples by 32767 while the decoder rescales by 32768. The
originally claimed 1/32768 bound fails, see the counterexample.
Nonemptiness is forced by the source: on the empty sequence the decode
side raises the zero-frame-count NotSupportedError instead of
succeeding. -/
theorem claim_codec_roundtrip :
    ∀ x : List ℚ, x ≠ [] → (∀ s ∈ x, -1 ≤ s ∧ s ≤ 1) →
      ∃ buf : AudioBuffer,
        decodeAudioData (createAudioBlob (float32ToInt16 x) 16000).data 24000 = .ok buf ∧
        buf.samples.length = x.length ∧
        ∀ (i : ℕ) (hb : i < buf.samples.length) (hx : i < x.length),
          |buf.samples[i] - x[i]| < 2 / 32768 := by
  intro x hxne hx
  have hrange : ∀ v ∈ float32ToInt16 x, -32768 ≤ v ∧ v ≤ 32767 := by
    intro v hv
    simp only [float32ToInt16, List.mem_map] at hv
    obtain ⟨s, hs, rfl⟩ := hv
    exact (sampleToInt16_quant s (hx s hs).1 (hx s hs).2).1
  have hbytes : ∀ b ∈ (float32ToInt16 x).flatMap int16ToBytes, b < 256 := by
    intro b hb
    simp only [List.mem_flatMap] at hb
    obtain ⟨v, -, hvb⟩ := hb
    exact int16ToBytes_lt v b hvb
  have hb64 : b64decode (b64encode ((float32ToInt16 x).flatMap int16ToBytes)) =
      (float32ToInt16 x).flatMap int16ToBytes := b64_roundtrip _ hbytes
  have hlen : ((float32ToInt16 x).flatMap int16ToBytes).length % 2 = 0 := by
    rw [flatMap_int16ToBytes_length]
    omega
  have hdata : (createAudioBlob (float32ToInt16 x) 16000).data =
      b64encode ((float32ToInt16 x).flatMap int16ToBytes) := rfl
  have hsamples : bytesToInt16s ((float32ToInt16 x).flatMap int16ToBytes) =
      float32ToInt16 x := bytesToInt16s_flatMap _ hrange
  have hne : (float32ToInt16 x).flatMap int16ToBytes ≠ [] := by
    intro hcon
    have h2 := flatMap_int16ToBytes_length (float32ToInt16 x)
    rw [hcon] at h2
    simp only [List.length_nil, float32ToInt16, List.length_map] at h2
    have h3 := List.length_pos.mpr hxne
    omega
  refine ⟨{ samples := x.map (fun s => ((sampleToInt16 s : ℤ) : ℚ) / 32768),
            sampleRate := 24000 }, ?_, by simp, ?_⟩
  · unfold decodeAudioData
    rw [hdata, hb64, if_pos hlen, if_neg hne, hsamples]
    unfold float32ToInt16
    rw [List.map_map]
    rfl
  · intro i hb hxlen
    have hmem : x[i] ∈ x := List.getElem_mem hxlen
    have hq := (sampleToInt16_quant (x[i]) (hx _ hmem).1 (hx _ hmem).2).2
    simpa using hq

theorem claim_codec_roundtrip_witness :
    ([(1 / 2 : ℚ)] ≠ []) ∧
    (∀ s ∈ [(1 / 2 : ℚ)], -1 ≤ s ∧ s ≤ 1) ∧
    (∃ buf : AudioBuffer,
      decodeAudioData (createAudioBlob (float32ToInt16 [(1 / 2 : ℚ)]) 16000).data 24000 =
        .ok buf ∧
      buf.samples.length = [(1 / 2 : ℚ)].length ∧
      ∀ (i : ℕ) (hb : i < buf.samples.length) (hx : i < [(1 / 2 : ℚ)].length),
        |buf.samples[i] - [(1 / 2 : ℚ)][i]| < 2 / 32768) :=
  ⟨by simp, by norm_num, claim_codec_roundtrip [(1 / 2 : ℚ)] (by simp) (by norm_num)⟩

/-- C5 counterexample: at the in-range sample 9999/10000 the framed
roundtrip returns 32763/32768, which differs from the original by
17232/327680000, strictly more than 1/32768 = 10000/327680000; the claimed
integer-quantization error bound of 1/32768 is therefore violated. -/
theorem claim_codec_roundtrip_cx :
    (-1 ≤ (9999 / 10000 : ℚ) ∧ (9999 / 10000 : ℚ) ≤ 1) ∧
    decodeAudioData (createAudioBlob (float32ToInt16 [(9999 / 10000 : ℚ)]) 16000).data 24000 =
      .ok { samples := [(32763 : ℚ) / 32768], sampleRate := 24000 } ∧
    ¬ (|(32763 : ℚ) / 32768 - 9999 / 10000| ≤ 1 / 32768) := by
  have hs : sampleToInt16 (9999 / 10000 : ℚ) = 32763 := by
    unfold sampleToInt16
    rw [min_eq_right (by norm_num : (9999 / 10000 : ℚ) ≤ 1),
        max_eq_right (by norm_num : (-1 : ℚ) ≤ 9999 / 10000),
        if_neg (by norm_num : ¬ (9999 / 10000 : ℚ) < 0)]
    unfold toInt16 jsTrunc
    rw [if_neg (by norm_num : ¬ (9999 / 10000 : ℚ) * 32767 < 0)]
    have hfl : ⌊(9999 / 10000 : ℚ) * 32767⌋ = 32763 := by
      rw [Int.floor_eq_iff]
      constructor <;> norm_num
    rw [hfl]
    exact wrap16_eq_self 32763 (by norm_num) (by norm_num)
  have hdata : (createAudioBlob (float32ToInt16 [(9999 / 10000 : ℚ)]) 16000).data =
      [62, 55, 60, 64] := by
    show b64encode (([(9999 / 10000 : ℚ)].map sampleToInt16).flatMap int16ToBytes) =
      [62, 55, 60, 64]
    rw [List.map_singleton, hs]
    decide
  refine ⟨by norm_num, ?_, ?_⟩
  · rw [hdata]
    have hb : b64decode [62, 55, 60, 64] = [251, 127] := by decide
    have hi : bytesToInt16s [251, 127] = [(32763 : ℤ)] := by decide
    unfold decodeAudioData
    rw [hb, if_pos (by norm_num), if_neg (by simp), hi]
    norm_num
  · have hneg : (32763 : ℚ) / 32768 - 9999 / 10000 < 0 := by norm_num
    rw [abs_of_neg hneg]
    norm_num

/-- C2 counterexample: in the for-of loop of the onmessage tool branch,
raising the latency of the first call from 0 to 5 moves the dispatch of
the second call from instant 0 to instant 5 — the latency of one call
delays the dispatch of the other, so dispatch is not concurrent. -/
theorem claim_concurrent_dispatch_cx :
    (onmessage { toolCall := some [("A", 5), ("B", 1)], parts := [] }
        mkAudioManager 0).toolResponses =
      [{ id := "A", dispatchTime := 0, responseTime := 5 },
       { id := "B", dispatchTime := 5, responseTime := 6 }] ∧
    (onmessage { toolCall := some [("A", 0), ("B", 1)], parts := [] }
        mkAudioManager 0).toolResponses =
      [{ id := "A", dispatchTime := 0, responseTime := 0 },
       { id := "B", dispatchTime := 0, responseTime := 1 }] ∧
    (5 : ℕ) ≠ 0 :=
  ⟨rfl, rfl, by decide⟩

/-- C2 (amended): tool calls of one inbound message are dispatched
sequentially, each call dispatched only at the completion instant of all
earlier calls in the message (its dispatch instant is the base instant
plus the sum of the earlier latencies); every call still yields exactly
one Tool Result, in order, echoing its id verbatim, sent at its own
completion instant. -/
theorem claim_tool_dispatch_sequential :
    ∀ (t0 : ℕ) (calls : List (String × ℕ)),
      (toolLoopSchedule t0 calls).map ToolResponseRecord.id = calls.map Prod.fst ∧
      (toolLoopSchedule t0 calls).length = calls.length ∧
      (∀ (i : ℕ) (r : ToolResponseRecord), (toolLoopSchedule t0 calls)[i]? = some r →
         r.dispatchTime = t0 + ((calls.take i).map Prod.snd).sum ∧
         r.responseTime = t0 + ((calls.take (i + 1)).map Prod.snd).sum) := by
  intro t0 calls
  induction calls generalizing t0 with
  | nil =>
    refine ⟨rfl, rfl, ?_⟩
    intro i r h
    simp [toolLoopSchedule] at h
  | cons c rest ih =>
    obtain ⟨cid, clat⟩ := c
    refine ⟨?_, ?_, ?_⟩
    · simp only [toolLoopSchedule, List.map_cons]
      rw [(ih (t0 + clat)).1]
    · simp only [toolLoopSchedule, List.length_cons]
      rw [(ih (t0 + clat)).2.1]
    · intro i r h
      match i with
      | 0 =>
        simp only [toolLoopSchedule, List.getElem?_cons_zero, Option.some.injEq] at h
        subst h
        simp
      | (j + 1) =>
        simp only [toolLoopSchedule, List.getElem?_cons_succ] at h
        obtain ⟨h1, h2⟩ := (ih (t0 + clat)).2.2 j r h
        constructor
        · rw [h1]
          simp only [List.take_succ_cons, List.map_cons, List.sum_cons]
          omega
        · rw [h2]
          simp only [List.take_succ_cons, List.map_cons, List.sum_cons]
          omega

theorem claim_tool_dispatch_sequential_witness :
    (toolLoopSchedule 0 [("A", 5), ("B", 1)])[1]? =
      some { id := "B", dispatchTime := 5, responseTime := 6 } ∧
    ({ id := "B", dispatchTime := 5, responseTime := 6 } : ToolResponseRecord).dispatchTime =
      0 + (([("A", 5), ("B", 1)].take 1).map Prod.snd).sum ∧
    ({ id := "B", dispatchTime := 5, responseTime := 6 } : ToolResponseRecord).responseTime =
      0 + (([("A", 5), ("B", 1)].take 2).map Prod.snd).sum :=
  ⟨rfl, (claim_tool_dispatch_sequential 0 [("A", 5), ("B", 1)]).2.2 1 _ rfl⟩

/-- A message whose second part carries a well-formed audio payload and a
text, while the first part carries only a text. -/
def twoPartMsg : ServerMessage :=
  { toolCall := none,
    parts := [{ inlineData := none, text := some "hi" },
              { inlineData := some [0, 0, 0, 64], text := some "world" }] }

/-- C3 counterexample: the message carries a well-formed inline audio
payload (in its second part) and a text fragment "world" there too, yet
the handler enqueues nothing — no node is scheduled and the scheduler
state is untouched — and the transcript shows only the first part. The
handler reads parts index 0 only. -/
theorem claim_demux_all_parts_cx :
    (twoPartMsg.parts.map ContentPart.inlineData).any Option.isSome = true ∧
    decodeAudioData [0, 0, 0, 64] 24000 =
      .ok { samples := [(0 : ℚ)], sampleRate := 24000 } ∧
    (onmessage twoPartMsg mkAudioManager 0).scheduled = none ∧
    (onmessage twoPartMsg mkAudioManager 0).manager = mkAudioManager ∧
    (onmessage twoPartMsg mkAudioManager 0).transcript = ["hi"] :=
  ⟨by decide, decode_zero_chunk, rfl, rfl, rfl⟩

/-- C3 (amended): the handler consults only the first element of
serverContent.modelTurn.parts: a nonempty audio payload there is enqueued
on the scheduler (the run equals one playAudioChunk call), a nonempty text
there is logged as one transcript event; when the first part carries no
nonempty payload or no nonempty text, nothing is enqueued or logged, no
matter what later parts carry. -/
theorem claim_demux_first_part :
    (∀ (msg : ServerMessage) (st : AudioManagerState) (now : ℚ) (d : List ℕ),
       msg.parts.head?.bind ContentPart.inlineData = some d → d ≠ [] →
       (onmessage msg st now).manager = (playAudioChunk now d st).1 ∧
       (onmessage msg st now).scheduled = (playAudioChunk now d st).2) ∧
    (∀ (msg : ServerMessage) (st : AudioManagerState) (now : ℚ),
       (msg.parts.head?.bind ContentPart.inlineData = none ∨
        msg.parts.head?.bind ContentPart.inlineData = some []) →
       (onmessage msg st now).manager = st ∧
       (onmessage msg st now).scheduled = none) ∧
    (∀ (msg : ServerMessage) (st : AudioManagerState) (now : ℚ) (t : String),
       msg.parts.head?.bind ContentPart.text = some t → t ≠ "" →
       (onmessage msg st now).transcript = [t]) ∧
    (∀ (msg : ServerMessage) (st : AudioManagerState) (now : ℚ),
       (msg.parts.head?.bind ContentPart.text = none ∨
        msg.parts.head?.bind ContentPart.text = some "") →
       (onmessage msg st now).transcript = []) := by
  refine ⟨?_, ?_, ?_, ?_⟩
  · rintro ⟨tc, parts⟩ st now d hd hne
    rcases parts with _ | ⟨⟨pin, ptx⟩, rest⟩
    · simp at hd
    · simp only [List.head?_cons, Option.some_bind, ContentPart.inlineData] at hd
      subst hd
      unfold onmessage
      simp [List.head?_cons, if_neg hne]
  · rintro ⟨tc, parts⟩ st now hd
    rcases parts with _ | ⟨⟨pin, ptx⟩, rest⟩
    · exact ⟨rfl, rfl⟩
    · simp only [List.head?_cons, Option.some_bind, ContentPart.inlineData] at hd
      rcases hd with hd | hd <;> subst hd <;> exact ⟨rfl, rfl⟩
  · rintro ⟨tc, parts⟩ st now t ht hne
    rcases parts with _ | ⟨⟨pin, ptx⟩, rest⟩
    · simp at ht
    · simp only [List.head?_cons, Option.some_bind, ContentPart.text] at ht
      subst ht
      unfold onmessage
      simp only [List.head?_cons, if_neg hne]
  · rintro ⟨tc, parts⟩ st now ht
    rcases parts with _ | ⟨⟨pin, ptx⟩, rest⟩
    · rfl
    · simp only [List.head?_cons, Option.some_bind, ContentPart.text] at ht
      rcases ht with ht | ht <;> subst ht <;> rfl

theorem claim_demux_first_part_witness :
    ({ toolCall := none,
       parts := [{ inlineData := some [0, 0, 0, 64], text := none }] } :
      ServerMessage).parts.head?.bind ContentPart.inlineData = some [0, 0, 0, 64] ∧
    ([0, 0, 0, 64] : List ℕ) ≠ [] ∧
    (onmessage
        { toolCall := none,
          parts := [{ inlineData := some [0, 0, 0, 64], text := none }] }
        mkAudioManager 0).manager =
      (playAudioChunk 0 [0, 0, 0, 64] mkAudioManager).1 ∧
    (onmessage
        { toolCall := none,
          parts := [{ inlineData := some [0, 0, 0, 64], text := none }] }
        mkAudioManager 0).scheduled =
      (playAudioChunk 0 [0, 0, 0, 64] mkAudioManager).2 :=
  ⟨rfl, by decide,
    (claim_demux_first_part.1
      { toolCall := none,
        parts := [{ inlineData := some [0, 0, 0, 64], text := none }] }
      mkAudioManager 0 [0, 0, 0, 64] rfl (by decide)).1,
    (claim_demux_first_part.1
      { toolCall := none,
        parts := [{ inlineData := some [0, 0, 0, 64], text := none }] }
      mkAudioManager 0 [0, 0, 0, 64] rfl (by decide)).2⟩

/-- An environment in which the reasoning capability throws. -/
def failingEnv : ToolEnv :=
  { now := "", activeFile := none, logicCoreResponse := .error "boom",
    searchResponse := .ok "", placesResponse := .ok "", imageResponse := .ok none,
    videoStart := .ok { done := true, videoUri := none }, videoPolls := [],
    videoFetch := .ok "" }

def emptyArgs : ToolArgs := { url := "", query := "", prompt := "", aspect := none }

/-- C4 counterexample: when the capability body throws, executeTool
resolves with an object whose payload field is result (holding the text
Error executing tool: followed by the message), not an object of the
error-field shape the claim describes. -/
theorem claim_dispatcher_error_shape_cx :
    executeToolBody "consult_logic_core" emptyArgs failingEnv = .throws "boom" ∧
    (executeTool "consult_logic_core" emptyArgs failingEnv).map ToolRun.outcome =
      some (.resultField "Error executing tool: boom") ∧
    (executeTool "consult_logic_core" emptyArgs failingEnv).map
      (fun r => r.outcome.isErrorField) = some false :=
  ⟨rfl, rfl, rfl⟩

/-- C4 (amended): executeTool never throws across its boundary — every
failure inside the switch is caught — but the normalized failure object
carries the description in its result field, starting with
Error executing tool: , and never uses an error field. -/
theorem claim_dispatcher_catches :
    (∀ (name : String) (args : ToolArgs) (env : ToolEnv) (e : String),
       executeToolBody name args env = .throws e →
       executeTool name args env =
         some { outcome := .resultField ("Error executing tool: " ++ e),
                media := [], videoStatusChecks := 0 }) ∧
    (∀ (name : String) (args : ToolArgs) (env : ToolEnv) (r : ToolRun),
       executeTool name args env = some r → r.outcome.isErrorField = false) := by
  constructor
  · intro name args env e h
    unfold executeTool
    rw [h]
  · intro name args env r h
    unfold executeTool at h
    rcases hb : executeToolBody name args env with ⟨v, m, c⟩ | e | _ <;> rw [hb] at h
    · simp only [Option.some.injEq] at h
      subst h
      rfl
    · simp only [Option.some.injEq] at h
      subst h
      rfl
    · cases h

theorem claim_dispatcher_catches_witness :
    executeToolBody "consult_logic_core" emptyArgs failingEnv = .throws "boom" ∧
    executeTool "consult_logic_core" emptyArgs failingEnv =
      some { outcome := .resultField ("Error executing tool: " ++ "boom"),
             media := [], videoStatusChecks := 0 } :=
  ⟨rfl, claim_dispatcher_catches.1 "consult_logic_core" emptyArgs failingEnv "boom" rfl⟩

/-- C8: a connect attempt without a usable credential fails with the
ConfigurationError, the visited states are CONNECTING then ERROR then
DISCONNECTED (teardown returns the session to DISCONNECTED), and the
microphone is never requested during the attempt. -/
theorem claim_connect_no_credential :
    ∀ env : ConnectEnv, hasCredential env.apiKey = false →
      connect env =
        { states := [.CONNECTING, .ERROR, .DISCONNECTED],
          micRequested := false, failure := some .ConfigurationError } ∧
      (connect env).states.getLast? = some .DISCONNECTED ∧
      ConnectionState.ERROR ∈ (connect env).states ∧
      (connect env).micRequested = false := by
  intro env h
  have hc : connect env =
      { states := [.CONNECTING, .ERROR, .DISCONNECTED],
        micRequested := false, failure := some .ConfigurationError } := by
    unfold connect
    rw [h]
    rfl
  refine ⟨hc, by rw [hc]; rfl, by rw [hc]; decide, by rw [hc]⟩

theorem claim_connect_no_credential_witness :
    hasCredential (({ apiKey := none, channelOpens := true } : ConnectEnv).apiKey) = false ∧
    connect { apiKey := none, channelOpens := true } =
      { states := [.CONNECTING, .ERROR, .DISCONNECTED],
        micRequested := false, failure := some .ConfigurationError } ∧
    (connect { apiKey := none, channelOpens := true }).micRequested = false :=
  ⟨rfl, (claim_connect_no_credential { apiKey := none, channelOpens := true } rfl).1,
    (claim_connect_no_credential { apiKey := none, channelOpens := true } rfl).2.2.2⟩

/-- C9: when the initial video operation handle is not done, the next two
poll results are not-done then done, and the completed handle carries a
video asset that fetches successfully, the capability inspects the done
flag exactly three times and emits exactly one Generated Media Item of
type video. -/
theorem claim_video_polling :
    ∀ (args : ToolArgs) (env : ToolEnv) (op0 op1 op2 : Operation)
      (uri objectUrl : String),
      env.videoStart = .ok op0 → env.videoPolls = [op1, op2] →
      op0.done = false → op1.done = false → op2.done = true →
      op2.videoUri = some uri → env.videoFetch = .ok objectUrl →
      executeTool "generate_video" args env =
        some { outcome := .resultField "Video generated and ready to play.",
               media := [{ type := .video, url := some objectUrl,
                           content := none, title := some args.prompt }],
               videoStatusChecks := 3 } := by
  intro args env op0 op1 op2 uri objectUrl hstart hpolls h0 h1 h2 huri hfetch
  have hpoll : pollVideo op0 [op1, op2] = some (op2, 3) := by
    simp [pollVideo, h0, h1, h2]
  have hbody : executeToolBody "generate_video" args env =
      .returns "Video generated and ready to play."
        [{ type := .video, url := some objectUrl,
           content := none, title := some args.prompt }] 3 := by
    simp only [executeToolBody, hstart, hpolls, hpoll, huri, hfetch]
  simp only [executeTool, hbody]

/-- Environment for the C9 witness: one not-done start handle, poll
results not-done then done with a video asset, a fetch that succeeds. -/
def videoEnv : ToolEnv :=
  { now := "", activeFile := none, logicCoreResponse := .ok "",
    searchResponse := .ok "", placesResponse := .ok "", imageResponse := .ok none,
    videoStart := .ok { done := false, videoUri := none },
    videoPolls := [{ done := false, videoUri := none },
                   { done := true, videoUri := some "files/video-asset" }],
    videoFetch := .ok "blob:video" }

theorem claim_video_polling_witness :
    videoEnv.videoStart = .ok { done := false, videoUri := none } ∧
    videoEnv.videoPolls = [{ done := false, videoUri := none },
                           { done := true, videoUri := some "files/video-asset" }] ∧
    videoEnv.videoFetch = .ok "blob:video" ∧
    executeTool "generate_video" emptyArgs videoEnv =
      some { outcome := .resultField "Video generated and ready to play.",
             media := [{ type := .video, url := some "blob:video",
                         content := none, title := some emptyArgs.prompt }],
             videoStatusChecks := 3 } :=
  ⟨rfl, rfl, rfl,
    claim_video_polling emptyArgs videoEnv
      { done := false, videoUri := none }
      { done := false, videoUri := none }
      { done := true, videoUri := some "files/video-asset" }
      "files/video-asset" "blob:video" rfl rfl rfl rfl rfl rfl rfl⟩

end Besa
